import Mathlib

/-!
Verification of the db-connector-extension core against its specification.

The TypeScript source is shallowly embedded: scripts are lists of
characters, dynamically typed cell values are an inductive `SqlValue`,
asynchronous provider calls are oracles passed as function arguments and
thrown exceptions are `Except.error`.
-/

set_option maxRecDepth 4096

/-- Dialect tag, from `src/types.ts` (`enum DatabaseType`). -/
inductive DatabaseType
  | MySQL
  | PostgreSQL
  | MSSQL
  | MongoDB
  | MariaDB
deriving DecidableEq, Repr

/-- Connection lifecycle state, from `src/types.ts` (`enum ConnectionState`). -/
inductive ConnectionState
  | Disconnected
  | Connecting
  | Connected
  | Error
deriving DecidableEq, Repr

/-- Whitespace in the sense of JavaScript `trim` / `\s` (ASCII part). -/
def isJsSpace (c : Char) : Bool :=
  c == ' ' || c == '\t' || c == '\n' || c == '\r' ||
  c == Char.ofNat 11 || c == Char.ofNat 12

/-- JavaScript `String.prototype.trim` on a character list. -/
def trimChars (l : List Char) : List Char :=
  ((l.dropWhile isJsSpace).reverse.dropWhile isJsSpace).reverse

namespace QueryExecutor

/-- The four mutually exclusive lexical modes of the statement splitter
(`inSingleQuote`, `inDoubleQuote`, `inLineComment`, `inBlockComment`
in `QueryExecutor.splitQueries`). -/
structure LexFlags where
  inSingleQuote : Bool := false
  inDoubleQuote : Bool := false
  inLineComment : Bool := false
  inBlockComment : Bool := false
deriving DecidableEq, Repr

/-- The line-comment handling block of the scan loop: outside quotes and
block comments, `--` opens a line comment and a newline closes it. -/
def lineCommentUpdate (f : LexFlags) (c : Char) (nextc : Option Char) : LexFlags :=
  if !f.inSingleQuote && !f.inDoubleQuote && !f.inBlockComment then
    let fa := if c == '-' && nextc == some '-' then { f with inLineComment := true } else f
    if c == '\n' && fa.inLineComment then { fa with inLineComment := false } else fa
  else f

/-- Condition of the block-comment close branch: `*` followed by `/` is
handled (copied and skipped) whenever the scanner is not inside a quote
or a line comment. -/
def blockCloseCond (f : LexFlags) (c : Char) (nextc : Option Char) : Bool :=
  !f.inSingleQuote && !f.inDoubleQuote && !f.inLineComment &&
    c == '*' && nextc == some '/'

/-- The block-comment open branch: `/` followed by `*` outside quotes and
line comments enters block-comment mode. -/
def blockOpenUpdate (f : LexFlags) (c : Char) (nextc : Option Char) : LexFlags :=
  if (!f.inSingleQuote && !f.inDoubleQuote && !f.inLineComment) &&
      c == '/' && nextc == some '*' then
    { f with inBlockComment := true }
  else f

/-- The quote handling block: outside comments, an unescaped single quote
toggles single-quote mode (unless inside double quotes) and a double quote
toggles double-quote mode (unless inside single quotes). -/
def quoteUpdate (f : LexFlags) (c : Char) : LexFlags :=
  if !f.inLineComment && !f.inBlockComment then
    let fa := if c == '\'' && !f.inDoubleQuote then
        { f with inSingleQuote := !f.inSingleQuote } else f
    if c == '"' && !fa.inSingleQuote then
      { fa with inDoubleQuote := !fa.inDoubleQuote } else fa
  else f

/-- All four lexical flags are off. -/
def topLevel (f : LexFlags) : Bool :=
  !f.inSingleQuote && !f.inDoubleQuote && !f.inLineComment && !f.inBlockComment

/-- The `if (trimmed) queries.push(trimmed)` step. -/
def emitFragment (current : List Char) : List (List Char) :=
  if (trimChars current).isEmpty then [] else [trimChars current]

/-- Flag evolution of one loop iteration that falls through the
block-comment close branch: line-comment update, then block-comment open,
then quote toggles. -/
def stepFlags (f : LexFlags) (c : Char) (nextc : Option Char) : LexFlags :=
  quoteUpdate (blockOpenUpdate (lineCommentUpdate f c nextc) c nextc) c

/-- The character scan loop of `QueryExecutor.splitQueries` (the `nextChar`
lookahead is made explicit by matching two characters at a time; on the last
character `nextChar` is `undefined`, so the block-comment close branch with
its `i++` skip cannot fire and the loop's final trailing-fragment push is
inlined). -/
def splitLoop (f : LexFlags) (cur : List Char) (acc : List (List Char)) :
    List Char → List (List Char)
  | [] => acc ++ emitFragment cur
  | [c] =>
    if c == ';' && topLevel (stepFlags f c none) then
      acc ++ emitFragment cur
    else
      acc ++ emitFragment (cur ++ [c])
  | c :: d :: rest =>
    if blockCloseCond (lineCommentUpdate f c (some d)) c (some d) then
      splitLoop { lineCommentUpdate f c (some d) with inBlockComment := false }
        (cur ++ ['*', '/']) acc rest
    else if c == ';' && topLevel (stepFlags f c (some d)) then
      splitLoop (stepFlags f c (some d)) [] (acc ++ emitFragment cur) (d :: rest)
    else
      splitLoop (stepFlags f c (some d)) (cur ++ [c]) acc (d :: rest)

/-- `QueryExecutor.splitQueries`: MongoDB scripts are returned whole
(trimmed); every SQL dialect is split by the lexical scan. -/
def splitQueries (dbType : DatabaseType) (query : List Char) : List (List Char) :=
  if dbType = DatabaseType.MongoDB then [trimChars query]
  else splitLoop {} [] [] query

/-- Prepend a character to the first fragment of a fragment list. -/
def consHead (c : Char) : List (List Char) → List (List Char)
  | [] => [[c]]
  | g :: gs => (c :: g) :: gs

/-- Reference decomposition: split a character list at every semicolon,
keeping empty fragments and the trailing fragment. -/
def splitSemis : List Char → List (List Char)
  | [] => [[]]
  | c :: rest =>
    if c = ';' then [] :: splitSemis rest else consHead c (splitSemis rest)

/-- Prepend an already-scanned prefix to the first fragment. -/
def consHeadFrag (cur : List Char) : List (List Char) → List (List Char)
  | [] => [cur]
  | g :: gs => (cur ++ g) :: gs

/-- The run of the splitter on a script never meets a semicolon while one
of the four lexical flags is set: every semicolon of the script is a
statement boundary. This is the formal reading of a script with no quoted
or commented semicolons. -/
def splitRunOk (f : LexFlags) : List Char → Bool
  | [] => true
  | [c] => !(c == ';') || topLevel (stepFlags f c none)
  | c :: d :: rest =>
    if blockCloseCond (lineCommentUpdate f c (some d)) c (some d) then
      splitRunOk { lineCommentUpdate f c (some d) with inBlockComment := false } rest
    else if c == ';' then
      topLevel (stepFlags f c (some d)) && splitRunOk (stepFlags f c (some d)) (d :: rest)
    else
      splitRunOk (stepFlags f c (some d)) (d :: rest)

end QueryExecutor

/-- Dynamically typed cell values handled by the data editor:
`null`/`undefined`, numbers, booleans, `Date` objects (carrying their
ISO-8601 rendering) and strings. -/
inductive SqlValue
  | vnull
  | vundefined
  | vnum (n : Int)
  | vbool (b : Bool)
  | vdate (iso : String)
  | vstr (s : String)
deriving DecidableEq, Repr

/-- A result row / data object: field names mapped to values, in insertion
order with distinct keys. -/
abbrev Row := List (String × SqlValue)

/-- JavaScript property access `row[key]`: the first binding of the key, or
`undefined` when the key is absent. -/
def rowGet (row : Row) (key : String) : SqlValue :=
  match row.find? (fun p => p.1 == key) with
  | some p => p.2
  | none => SqlValue.vundefined

/-- Column metadata, from `src/types.ts` (`interface ColumnInfo`). -/
structure ColumnInfo where
  name : String
  type : String
  nullable : Bool
  isPrimaryKey : Bool
  isForeignKey : Bool
  defaultValue : Option String := none
deriving DecidableEq, Repr

/-- Field metadata of a query result, from `src/types.ts`. -/
structure QueryField where
  name : String
  type : String
deriving DecidableEq, Repr

/-- Result of one statement execution, from `src/types.ts`
(`interface QueryResult`). -/
structure QueryResult where
  rows : Option (List Row) := none
  rowCount : Nat
  fields : Option (List QueryField) := none
  executionTime : Nat
  error : Option String := none
deriving DecidableEq, Repr

namespace DataEditor

/-- Table identity and editability verdict (`interface EditableTableInfo`). -/
structure EditableTableInfo where
  tableName : String
  schema : Option String := none
  database : Option String := none
  primaryKeys : List String
  columns : List ColumnInfo
  isEditable : Bool
  editError : Option String := none
deriving DecidableEq, Repr

/-- One recorded cell edit (`interface CellChange`). -/
structure CellChange where
  rowIndex : Nat
  column : String
  oldValue : SqlValue
  newValue : SqlValue
deriving DecidableEq, Repr

/-- A buffered row insertion (`interface NewRow`). -/
structure NewRow where
  tempId : String
  data : Row
deriving DecidableEq, Repr

/-- A delete marker (`interface DeletedRow`). -/
structure DeletedRow where
  rowIndex : Nat
  data : Row
deriving DecidableEq, Repr

/-- The three pending-change collections (`interface PendingChanges`). -/
structure PendingChanges where
  updates : List CellChange := []
  inserts : List NewRow := []
  deletes : List DeletedRow := []
deriving DecidableEq, Repr

/-- The pristine pending-change state (also the result of `clearChanges`). -/
def emptyPendingChanges : PendingChanges := {}

/-- `DataEditor.addCellChange` on the updates collection: the first entry
for the same `(rowIndex, column)` cell has its `newValue` overwritten,
keeping the original `oldValue`; when the overwritten entry's baseline
`oldValue` equals the incoming `newValue` the entry is removed; when no
entry matches, the incoming change is pushed at the end (this translates
the `findIndex` / assignment / `splice` sequence of the source). -/
def addCellChange : List CellChange → CellChange → List CellChange
  | [], change => [change]
  | c :: rest, change =>
    if c.rowIndex == change.rowIndex && c.column == change.column then
      if c.oldValue == change.newValue then rest
      else { c with newValue := change.newValue } :: rest
    else c :: addCellChange rest change

/-- `DataEditor.addNewRow`. -/
def addNewRow (pc : PendingChanges) (row : NewRow) : PendingChanges :=
  { pc with inserts := pc.inserts ++ [row] }

/-- Remove the first buffered insert with the given temp id, if any. -/
def removeFirstInsert (tempId : String) : List NewRow → Option (List NewRow)
  | [] => none
  | r :: rest =>
    if r.tempId == tempId then some rest
    else (removeFirstInsert tempId rest).map (r :: ·)

/-- `DataEditor.markRowForDeletion`: a row carrying the `_tempId` of a
pending insert removes that insert; otherwise a delete marker is pushed. -/
def markRowForDeletion (pc : PendingChanges) (row : DeletedRow) : PendingChanges :=
  match rowGet row.data "_tempId" with
  | SqlValue.vstr tid =>
    match removeFirstInsert tid pc.inserts with
    | some inserts' => { pc with inserts := inserts' }
    | none => { pc with deletes := pc.deletes ++ [row] }
  | _ => { pc with deletes := pc.deletes ++ [row] }

/-- `DataEditor.hasChanges`. -/
def hasChanges (pc : PendingChanges) : Bool :=
  !pc.updates.isEmpty || !pc.inserts.isEmpty || !pc.deletes.isEmpty

/-- `DataEditor.quoteIdentifier`: backticks for MySQL/MariaDB, double
quotes for PostgreSQL, brackets for MSSQL, double quotes for the default
branch. -/
def quoteIdentifier (identifier : String) (dbType : DatabaseType) : String :=
  match dbType with
  | DatabaseType.MySQL => "`" ++ identifier ++ "`"
  | DatabaseType.MariaDB => "`" ++ identifier ++ "`"
  | DatabaseType.PostgreSQL => "\"" ++ identifier ++ "\""
  | DatabaseType.MSSQL => "[" ++ identifier ++ "]"
  | DatabaseType.MongoDB => "\"" ++ identifier ++ "\""

/-- The `replace(/'/g, "''")` escaping: every single quote is doubled and
every other character is kept. -/
def escapeChars (l : List Char) : List Char :=
  (l.map (fun c => if c = '\'' then ['\'', '\''] else [c])).flatten

/-- String form of `escapeChars`. -/
def escapeSingleQuotes (s : String) : String :=
  (escapeChars s.toList).asString

/-- `DataEditor.formatValue`. -/
def formatValue (value : SqlValue) (dbType : DatabaseType) : String :=
  match value with
  | SqlValue.vnull => "NULL"
  | SqlValue.vundefined => "NULL"
  | SqlValue.vnum n => toString n
  | SqlValue.vbool b =>
    if dbType = DatabaseType.PostgreSQL then (if b then "TRUE" else "FALSE")
    else (if b then "1" else "0")
  | SqlValue.vdate iso => "'" ++ (iso ++ "'")
  | SqlValue.vstr s => "'" ++ (escapeSingleQuotes s ++ "'")

/-- `DataEditor.buildWhereClause`: AND-conjunction over the primary keys. -/
def buildWhereClause (tableInfo : EditableTableInfo) (row : Row)
    (dbType : DatabaseType) : String :=
  String.intercalate " AND "
    (tableInfo.primaryKeys.map fun pk =>
      quoteIdentifier pk dbType ++ " = " ++ formatValue (rowGet row pk) dbType)

/-- A truthy optional name part contributes one quoted component
(JavaScript treats the empty string as falsy). -/
def truthyPart (part : Option String) (dbType : DatabaseType) : List String :=
  match part with
  | some s => if s = "" then [] else [quoteIdentifier s dbType]
  | none => []

/-- `DataEditor.getFullTableName`. -/
def getFullTableName (ti : EditableTableInfo) (dbType : DatabaseType) : String :=
  String.intercalate "."
    (truthyPart ti.database dbType ++ truthyPart ti.schema dbType ++
      [quoteIdentifier ti.tableName dbType])

/-- One step of building the `updatesByRow` map: a JavaScript `Map` keeps
keys in insertion order and `push` appends within a bucket. -/
def insertUpdate (m : List (Nat × List CellChange)) (u : CellChange) :
    List (Nat × List CellChange) :=
  if m.any (fun p => p.1 == u.rowIndex) then
    m.map (fun p => if p.1 == u.rowIndex then (p.1, p.2 ++ [u]) else p)
  else m ++ [(u.rowIndex, [u])]

/-- The `updatesByRow` grouping of `generateSqlStatements`. -/
def groupUpdatesByRow (updates : List CellChange) : List (Nat × List CellChange) :=
  updates.foldl insertUpdate []

/-- One generated DELETE statement (`rows[del.rowIndex] || del.data` falls
back to the recorded pre-edit data). -/
def deleteStatement (ti : EditableTableInfo) (rows : List Row)
    (dbType : DatabaseType) (del : DeletedRow) : String :=
  "DELETE FROM " ++ (getFullTableName ti dbType ++ (" WHERE " ++
    (buildWhereClause ti ((rows.get? del.rowIndex).getD del.data) dbType ++ ";")))

/-- One generated UPDATE statement for one row's coalesced cell changes. -/
def updateStatement (ti : EditableTableInfo) (rows : List Row)
    (dbType : DatabaseType) (group : Nat × List CellChange) : String :=
  "UPDATE " ++ (getFullTableName ti dbType ++ (" SET " ++
    (String.intercalate ", "
      (group.2.map fun c =>
        quoteIdentifier c.column dbType ++ " = " ++ formatValue c.newValue dbType) ++
    (" WHERE " ++
      (buildWhereClause ti ((rows.get? group.1).getD []) dbType ++ ";")))))

/-- The data-map keys of an insert that are not internal bookkeeping
fields (`Object.keys(...).filter(k => !k.startsWith('_'))`). -/
def insertColumns (ins : NewRow) : List String :=
  (ins.data.map Prod.fst).filter (fun k => !(k.startsWith "_"))

/-- One generated INSERT statement. -/
def insertStatement (ti : EditableTableInfo) (dbType : DatabaseType)
    (ins : NewRow) : String :=
  "INSERT INTO " ++ (getFullTableName ti dbType ++ (" (" ++
    (String.intercalate ", " ((insertColumns ins).map (quoteIdentifier · dbType)) ++
    (") VALUES (" ++
      (String.intercalate ", "
        ((insertColumns ins).map (fun c => formatValue (rowGet ins.data c) dbType)) ++
      ");")))))

/-- `DataEditor.generateSqlStatements`: DELETE statements, then UPDATE
statements (grouped by row), then INSERT statements. -/
def generateSqlStatements (pc : PendingChanges) (tableInfo : EditableTableInfo)
    (rows : List Row) (dbType : DatabaseType) : List String :=
  pc.deletes.map (deleteStatement tableInfo rows dbType) ++
  (groupUpdatesByRow pc.updates).map (updateStatement tableInfo rows dbType) ++
  pc.inserts.map (insertStatement tableInfo dbType)

/-- Word characters in the sense of the JavaScript regex class `\w`. -/
def isWordChar (c : Char) : Bool := c.isAlpha || c.isDigit || c == '_'

/-- A `\b` word boundary holds before a word character when the previous
character is absent or not a word character. -/
def boundaryOk (prev : Option Char) : Bool :=
  match prev with
  | none => true
  | some p => !isWordChar p

/-- A `\b` word boundary holds after a word character when the following
text is empty or starts with a non-word character. -/
def wordEndOk (l : List Char) : Bool :=
  match l with
  | [] => true
  | c :: _ => !isWordChar c

/-- Case-insensitive match of a lowercase pattern at the head of the text. -/
def matchesCIAt : List Char → List Char → Bool
  | [], _ => true
  | _ :: _, [] => false
  | a :: w, c :: s => a == c.toLower && matchesCIAt w s

/-- Scan for `\b<word>\b` (case-insensitive) anywhere in the text. -/
def containsWordCIAux (w : List Char) : Option Char → List Char → Bool
  | _, [] => false
  | prev, c :: rest =>
    (boundaryOk prev && matchesCIAt w (c :: rest) &&
      wordEndOk ((c :: rest).drop w.length)) ||
    containsWordCIAux w (some c) rest

/-- Test of the regexes `/\bjoin\b/i` and `/\bunion\b/i`. -/
def containsWordCI (w : List Char) (s : List Char) : Bool :=
  containsWordCIAux w none s

/-- Number of occurrences counted by `query.match(/select/gi)`. Because
`select` cannot overlap itself, counting at every position equals the
regex engine's non-overlapping count. -/
def countSelect : List Char → Nat
  | [] => 0
  | c :: rest =>
    (if matchesCIAt "select".toList (c :: rest) then 1 else 0) + countSelect rest

/-- Match of `group\s+by\b` at the head of the text. -/
def groupByAt (l : List Char) : Bool :=
  matchesCIAt "group".toList l &&
  !((l.drop 5).takeWhile isJsSpace).isEmpty &&
  matchesCIAt "by".toList ((l.drop 5).dropWhile isJsSpace) &&
  wordEndOk (((l.drop 5).dropWhile isJsSpace).drop 2)

/-- Scan for the regex `/\bgroup\s+by\b/i`. -/
def containsGroupByAux : Option Char → List Char → Bool
  | _, [] => false
  | prev, c :: rest =>
    (boundaryOk prev && groupByAt (c :: rest)) || containsGroupByAux (some c) rest

/-- Test of the regex `/\bgroup\s+by\b/i`. -/
def containsGroupBy (s : List Char) : Bool := containsGroupByAux none s

/-- The opening-quote class of the FROM regex, which is also the class
stripped from the captured identifier. -/
def isFromQuoteOpen (c : Char) : Bool :=
  c == '`' || c == '"' || c == '[' || c == ']'

/-- The closing-quote class of the FROM regex. -/
def isFromQuoteClose (c : Char) : Bool :=
  c == '`' || c == '"' || c == ']'

/-- Characters matched by `[\w.]`. -/
def isWordDot (c : Char) : Bool := isWordChar c || c == '.'

/-- The optional closing quote of the FROM capture. -/
def closeQuotePart : List Char → List Char
  | [] => []
  | c :: _ => if isFromQuoteClose c then [c] else []

/-- Attempt of the regex `/\bfrom\s+([`"[\]]?[\w.]+[`"\]]?)/i` at the head
of the text (the word boundary is checked by the caller); returns the
capture group. -/
def fromCaptureAt (l : List Char) : Option (List Char) :=
  if matchesCIAt "from".toList l then
    if ((l.drop 4).takeWhile isJsSpace).isEmpty then none
    else
      match (l.drop 4).dropWhile isJsSpace with
      | [] => none
      | c :: r2 =>
        if isFromQuoteOpen c then
          if (r2.takeWhile isWordDot).isEmpty then none
          else some (c :: (r2.takeWhile isWordDot ++
            closeQuotePart (r2.dropWhile isWordDot)))
        else
          if ((c :: r2).takeWhile isWordDot).isEmpty then none
          else some ((c :: r2).takeWhile isWordDot ++
            closeQuotePart ((c :: r2).dropWhile isWordDot))
  else none

/-- Leftmost match of the FROM regex over the whole text. -/
def findFromCapture : Option Char → List Char → Option (List Char)
  | _, [] => none
  | prev, c :: rest =>
    match (if boundaryOk prev then fromCaptureAt (c :: rest) else none) with
    | some cap => some cap
    | none => findFromCapture (some c) rest

/-- The `replace(/[`"[\]]/g, '')` strip of quoting characters. -/
def stripQuoteChars (l : List Char) : List Char :=
  l.filter (fun c => !isFromQuoteOpen c)

/-- Split a character list at every dot (JavaScript `split('.')`). -/
def splitOnDot : List Char → List (List Char)
  | [] => [[]]
  | c :: rest =>
    if c = '.' then [] :: splitOnDot rest
    else QueryExecutor.consHead c (splitOnDot rest)

/-- A non-editable verdict with its reason. -/
def rejected (msg : String) : EditableTableInfo :=
  { tableName := "", primaryKeys := [], columns := [], isEditable := false,
    editError := some msg }

/-- Interpretation of the stripped FROM identifier: three dot-separated
parts are database.schema.table, two are schema.table, anything else is
the table name verbatim. -/
def tableInfoOfParts (tn : List Char) : EditableTableInfo :=
  match splitOnDot tn with
  | [d, sc, t] =>
    { tableName := t.asString, schema := some sc.asString,
      database := some d.asString, primaryKeys := [], columns := [],
      isEditable := true }
  | [sc, t] =>
    { tableName := t.asString, schema := some sc.asString, primaryKeys := [],
      columns := [], isEditable := true }
  | _ =>
    { tableName := tn.asString, primaryKeys := [], columns := [],
      isEditable := true }

/-- `DataEditor.parseQueryForTable`. -/
def parseQueryForTable (query : List Char) : EditableTableInfo :=
  if !("select".toList.isPrefixOf ((trimChars query).map Char.toLower)) then
    rejected "Only SELECT queries can be edited"
  else if containsWordCI "join".toList query then
    rejected "Queries with JOINs cannot be edited directly"
  else if countSelect query > 1 then
    rejected "Queries with subqueries cannot be edited directly"
  else if containsWordCI "union".toList query then
    rejected "UNION queries cannot be edited directly"
  else if containsGroupBy query then
    rejected "Aggregated queries cannot be edited"
  else
    match findFromCapture none query with
    | none => rejected "Could not identify table name"
    | some cap => tableInfoOfParts (stripQuoteChars cap)

/-- Aggregate result of `DataEditor.executeChanges`. -/
structure SaveResult where
  success : Bool
  message : String
  affectedRows : Nat
deriving DecidableEq, Repr

/-- The statement loop of `executeChanges`: each statement is executed in
order; a returned `error` or a thrown error appends one error text, a
success adds the affected-row count. -/
def execChangesLoop (exec : String → Except String QueryResult) :
    List String → Nat → List String → Nat × List String
  | [], affected, errors => (affected, errors)
  | sql :: rest, affected, errors =>
    match exec sql with
    | Except.ok r =>
      match r.error with
      | some e => execChangesLoop exec rest affected (errors ++ [sql ++ ("\nError: " ++ e)])
      | none => execChangesLoop exec rest (affected + r.rowCount) errors
    | Except.error m => execChangesLoop exec rest affected (errors ++ [sql ++ ("\nError: " ++ m)])

/-- `DataEditor.executeChanges`: compiles the statements, executes them
against the provider (an oracle argument) and clears the pending changes
only when no statement failed. Returns the reported result together with
the pending-change state after the call. -/
def executeChanges (pc : PendingChanges) (tableInfo : EditableTableInfo)
    (rows : List Row) (dbType : DatabaseType) (providerPresent : Bool)
    (exec : String → Except String QueryResult) : SaveResult × PendingChanges :=
  let statements := generateSqlStatements pc tableInfo rows dbType
  if statements.isEmpty then
    ({ success := true, message := "No changes to save", affectedRows := 0 }, pc)
  else if !providerPresent then
    ({ success := false, message := "Connection not available", affectedRows := 0 }, pc)
  else
    let res := execChangesLoop exec statements 0 []
    if !res.2.isEmpty then
      ({ success := false,
         message := "Some changes failed:\n" ++ String.intercalate "\n\n" res.2,
         affectedRows := res.1 }, pc)
    else
      ({ success := true,
         message := "Successfully saved " ++ (toString res.1 ++ " changes"),
         affectedRows := res.1 }, emptyPendingChanges)

/-- A statement executes without error: the provider returns a result whose
`error` field is unset. -/
def execOk (exec : String → Except String QueryResult) (sql : String) : Bool :=
  match exec sql with
  | Except.ok r => r.error.isNone
  | Except.error _ => false

/-- Affected-row total of the statements that execute without error. -/
def sumAffectedRows (exec : String → Except String QueryResult) :
    List String → Nat
  | [] => 0
  | sql :: rest =>
    (match exec sql with
     | Except.ok r => match r.error with
       | none => r.rowCount
       | some _ => 0
     | Except.error _ => 0) + sumAffectedRows exec rest

/-- The error texts collected from the failing statements, in order. -/
def collectErrorTexts (exec : String → Except String QueryResult) :
    List String → List String
  | [] => []
  | sql :: rest =>
    (match exec sql with
     | Except.ok r => match r.error with
       | some e => [sql ++ ("\nError: " ++ e)]
       | none => []
     | Except.error m => [sql ++ ("\nError: " ++ m)]) ++
    collectErrorTexts exec rest

/-- Modelled from the spec: the spec's C6 wording speaks of keywords
occurring "outside of string literals". This keeps every character outside
single- or double-quoted literals (and the delimiters) and removes the
literal contents; it exists only to state that reading, the source performs
no such literal-awareness. -/
def stripQuotedContent : Option Char → List Char → List Char
  | none, [] => []
  | none, c :: rest =>
    if c = '\'' ∨ c = '"' then c :: stripQuotedContent (some c) rest
    else c :: stripQuotedContent none rest
  | some _, [] => []
  | some q, c :: rest =>
    if c = q then c :: stripQuotedContent none rest
    else stripQuotedContent (some q) rest

end DataEditor

/-- One persisted query-history record, from `src/types.ts`
(`interface QueryHistoryEntry`; the timestamp is abstracted to a number). -/
structure QueryHistoryEntry where
  id : String
  connectionId : String
  query : String
  timestamp : Nat
  executionTime : Nat
  success : Bool
  error : Option String := none
deriving DecidableEq, Repr

/-- JavaScript `Array.prototype.slice(-m)` on a list: the last `m` elements,
except that `slice(-0)` is `slice(0)`, the whole array. -/
def jsSliceLast {α : Type} (l : List α) (m : Nat) : List α :=
  if m = 0 then l else l.drop (l.length - m)

namespace QueryExecutor

/-- The history entry built by `addToHistory` from a statement outcome. -/
def mkHistoryEntry (id connectionId query : String) (timestamp : Nat)
    (result : QueryResult) : QueryHistoryEntry :=
  { id, connectionId, query, timestamp,
    executionTime := result.executionTime,
    success := result.error.isNone,
    error := result.error }

/-- `QueryExecutor.addToHistory` on the history list: push the entry, then
truncate to the last `maxHistorySize` entries when the cap is exceeded. -/
def addToHistory (history : List QueryHistoryEntry) (entry : QueryHistoryEntry)
    (maxHistorySize : Nat) : List QueryHistoryEntry :=
  if (history ++ [entry]).length > maxHistorySize then
    jsSliceLast (history ++ [entry]) maxHistorySize
  else history ++ [entry]

end QueryExecutor

/-- The live-handle state a provider consults in `ensureConnected`
(`this.connection` / `this.client` nullity plus the `ConnectionState`). -/
structure ProviderHandle where
  hasConnection : Bool
  state : ConnectionState
deriving DecidableEq, Repr

namespace MySQLProvider

/-- Effect of the g,m-flagged regex `--.*$` on one line: drop everything
from the first `--`. -/
def stripLineCommentFromLine : List Char → List Char
  | [] => []
  | '-' :: '-' :: _ => []
  | c :: rest => c :: stripLineCommentFromLine rest

/-- Split a character list at every newline. -/
def splitOnNewline : List Char → List (List Char)
  | [] => [[]]
  | c :: rest =>
    if c = '\n' then [] :: splitOnNewline rest
    else QueryExecutor.consHead c (splitOnNewline rest)

/-- Join lines back with newlines. -/
def joinLines (ls : List (List Char)) : List Char :=
  (ls.intersperse ['\n']).flatten

/-- The removal of line comments: the g,m-flagged regex `--.*$` replaced
by the empty string on every line. -/
def stripLineComments (l : List Char) : List Char :=
  joinLines ((splitOnNewline l).map stripLineCommentFromLine)

/-- One-pass form of `replace(/\/\*[\s\S]*?\*\//g, '')`: after an opening
`/*` the consumed text is buffered until the nearest `*/`; an unmatched
opener is emitted verbatim (the lazy regex finds no match there). -/
def stripBlockAux : Bool → List Char → List Char → List Char
  | false, _, [] => []
  | false, _, '/' :: '*' :: rest => stripBlockAux true [] rest
  | false, buf, c :: rest => c :: stripBlockAux false buf rest
  | true, buf, [] => '/' :: '*' :: buf.reverse
  | true, _, '*' :: '/' :: rest => stripBlockAux false [] rest
  | true, buf, c :: rest => stripBlockAux true (c :: buf) rest

/-- `replace(/\/\*[\s\S]*?\*\//g, '')`. -/
def stripBlockComments (l : List Char) : List Char :=
  stripBlockAux false [] l

/-- The quote class of the USE regex. -/
def isUseQuote (c : Char) : Bool := c == '`' || c == '\'' || c == '"'

/-- Consume one optional quote character. -/
def takeOptQuote : List Char → List Char × List Char
  | [] => ([], [])
  | c :: rest => if isUseQuote c then ([c], rest) else ([], c :: rest)

/-- Consume one optional semicolon. -/
def takeOptSemi : List Char → List Char × List Char
  | ';' :: rest => ([';'], rest)
  | l => ([], l)

/-- Attempt of `\s*USE\s+[`'"]?\w+[`'"]?\s*;?\s*` (case-insensitive) at a
`^` position; returns the consumed text and the remainder. The greedy
whitespace and word runs admit no backtracking because no later regex part
can match a character the run rejected. -/
def useMatchAt (l : List Char) : Option (List Char × List Char) :=
  let ws0 := l.takeWhile isJsSpace
  let r1 := l.dropWhile isJsSpace
  if DataEditor.matchesCIAt "use".toList r1 then
    let ws1 := (r1.drop 3).takeWhile isJsSpace
    let r3 := (r1.drop 3).dropWhile isJsSpace
    if ws1.isEmpty then none
    else
      let q1 := takeOptQuote r3
      let run := q1.2.takeWhile DataEditor.isWordChar
      if run.isEmpty then none
      else
        let q2 := takeOptQuote (q1.2.dropWhile DataEditor.isWordChar)
        let ws2 := q2.2.takeWhile isJsSpace
        let semi := takeOptSemi (q2.2.dropWhile isJsSpace)
        let ws3 := semi.2.takeWhile isJsSpace
        some (ws0 ++ r1.take 3 ++ ws1 ++ q1.1 ++ run ++ q2.1 ++ ws2 ++ semi.1 ++ ws3,
          semi.2.dropWhile isJsSpace)
  else none

/-- Scan of `replace(/^\s*USE\s+[`'"]?\w+[`'"]?\s*;?\s*/gim, '')`: a match
may start only at the string start or right after a newline; after a match
the scan resumes at the remainder, which is at a line start exactly when
the last consumed character was a newline. The fuel argument only bounds
the recursion; every step consumes at least one character, so the initial
fuel `l.length` is never exhausted. -/
def stripUseAux : Nat → Bool → List Char → List Char
  | _, _, [] => []
  | 0, _, l => l
  | Nat.succ n, atLineStart, c :: rest =>
    if atLineStart then
      match useMatchAt (c :: rest) with
      | some (consumed, rem) => stripUseAux n (consumed.getLastD 'x' == '\n') rem
      | none => c :: stripUseAux n (c == '\n') rest
    else
      c :: stripUseAux n (c == '\n') rest

/-- `replace(/^\s*USE\s+[`'"]?\w+[`'"]?\s*;?\s*/gim, '')`. -/
def stripUseStatements (l : List Char) : List Char :=
  stripUseAux l.length true l

/-- The per-line trim, empty-line filter and rejoin of `cleanQuery`. -/
def tidyLines (l : List Char) : List Char :=
  trimChars (joinLines
    (((splitOnNewline l).map trimChars).filter (fun x => !x.isEmpty)))

/-- The trailing-semicolon removal of `cleanQuery`: only when the text ends
with the single semicolon it contains. -/
def removeTrailingSemi (l : List Char) : List Char :=
  if l.getLast? == some ';' && l.count ';' == 1 then trimChars l.dropLast
  else l

/-- `MySQLProvider.cleanQuery`. -/
def cleanQuery (query : String) : String :=
  (removeTrailingSemi (tidyLines (stripUseStatements (stripBlockComments
    (stripLineComments query.toList))))).asString

/-- A command sent over the MySQL connection: the `USE ??` database switch
or a statement text. -/
inductive MySQLCommand
  | useDatabase (db : String)
  | statement (sql : String)
deriving DecidableEq, Repr

/-- What the mysql2 driver returns for one query: a row set with fields, or
an OK packet with an affected-row count. -/
inductive MySQLReply
  | resultRows (rows : List Row) (fields : List QueryField)
  | okPacket (affectedRows : Nat)
deriving DecidableEq, Repr

/-- The part of `MySQLProvider.executeQuery` after the database switch:
clean the query, short-circuit when nothing remains, otherwise send the
cleaned statement and shape the reply; driver errors are caught into
`QueryResult.error`. -/
def runStatement (server : MySQLCommand → Except String MySQLReply)
    (query : String) (elapsed : Nat) (sent : List MySQLCommand) :
    Except String (QueryResult × List MySQLCommand) :=
  let cleaned := cleanQuery query
  if cleaned = "" then
    Except.ok ({ rowCount := 0, executionTime := 0,
                 error := some "No valid SQL query found" }, sent)
  else
    match server (MySQLCommand.statement cleaned) with
    | Except.ok (MySQLReply.resultRows rows fields) =>
      Except.ok ({ rows := some rows, rowCount := rows.length,
                   fields := some fields, executionTime := elapsed },
        sent ++ [MySQLCommand.statement cleaned])
    | Except.ok (MySQLReply.okPacket n) =>
      Except.ok ({ rowCount := n, executionTime := elapsed },
        sent ++ [MySQLCommand.statement cleaned])
    | Except.error e =>
      Except.ok ({ rowCount := 0, executionTime := elapsed, error := some e },
        sent ++ [MySQLCommand.statement cleaned])

/-- `MySQLProvider.executeQuery` (also the MariaDB provider, which inherits
it unchanged): `ensureConnected` throws before the try block; inside it a
database argument first issues a `USE ??` switch, whose failure is caught
into `QueryResult.error`. The returned list records every command sent to
the server. -/
def executeQuery (h : ProviderHandle)
    (server : MySQLCommand → Except String MySQLReply)
    (query : String) (database : Option String) (elapsed : Nat) :
    Except String (QueryResult × List MySQLCommand) :=
  if h.hasConnection = false ∨ h.state ≠ ConnectionState.Connected then
    Except.error "Not connected to MySQL database"
  else
    match database with
    | some db =>
      match server (MySQLCommand.useDatabase db) with
      | Except.error e =>
        Except.ok ({ rowCount := 0, executionTime := elapsed, error := some e },
          [MySQLCommand.useDatabase db])
      | Except.ok _ =>
        runStatement server query elapsed [MySQLCommand.useDatabase db]
    | none => runStatement server query elapsed []

end MySQLProvider

namespace MongoDBProvider

/-- What evaluating the query text against the database handle yields: an
array of documents or a single document. -/
inductive MongoEvalResult
  | arr (docs : List Row)
  | single (doc : Row)
deriving DecidableEq, Repr

/-- `MongoDBProvider.executeQuery`: `ensureConnected` throws before the try
block; evaluation failures are wrapped by `executeMongoQuery` and caught
into `QueryResult.error`; an array result is returned as rows, any other
result as a single row. -/
def executeQuery (h : ProviderHandle)
    (evalQuery : String → String → Except String MongoEvalResult)
    (query : String) (database : Option String) (elapsed : Nat) :
    Except String QueryResult :=
  if h.hasConnection = false ∨ h.state ≠ ConnectionState.Connected then
    Except.error "Not connected to MongoDB database"
  else
    match evalQuery
        (match database with
         | some d => if d = "" then "test" else d
         | none => "test") query with
    | Except.ok (MongoEvalResult.arr docs) =>
      Except.ok { rows := some docs, rowCount := docs.length,
                  executionTime := elapsed }
    | Except.ok (MongoEvalResult.single doc) =>
      Except.ok { rows := some [doc], rowCount := 1, executionTime := elapsed }
    | Except.error e =>
      Except.ok { rowCount := 0, executionTime := elapsed,
                  error := some ("Failed to execute query: " ++ e) }

end MongoDBProvider

-- ## Theorems

namespace QueryExecutor

theorem splitSemis_ne_nil (l : List Char) : splitSemis l ≠ [] := by
  cases l with
  | nil => simp [splitSemis]
  | cons c rest =>
    rw [splitSemis]
    split
    · simp
    · cases h : splitSemis rest <;> simp [consHead]

theorem consHeadFrag_consHead (cur : List Char) (c : Char) (gs : List (List Char)) :
    consHeadFrag cur (consHead c gs) = consHeadFrag (cur ++ [c]) gs := by
  cases gs <;> simp [consHead, consHeadFrag]

theorem consHeadFrag_nil (gs : List (List Char)) (h : gs ≠ []) :
    consHeadFrag [] gs = gs := by
  cases gs with
  | nil => exact absurd rfl h
  | cons g gs => simp [consHeadFrag]

theorem lineCommentUpdate_semi (f : LexFlags) (n : Option Char) :
    lineCommentUpdate f ';' n = f := by
  simp [lineCommentUpdate]

theorem blockCloseCond_semi (f : LexFlags) (n : Option Char) :
    blockCloseCond f ';' n = false := by
  simp [blockCloseCond]

theorem blockOpenUpdate_semi (f : LexFlags) (n : Option Char) :
    blockOpenUpdate f ';' n = f := by
  simp [blockOpenUpdate]

theorem quoteUpdate_semi (f : LexFlags) :
    quoteUpdate f ';' = f := by
  simp [quoteUpdate]

theorem stepFlags_semi (f : LexFlags) (n : Option Char) :
    stepFlags f ';' n = f := by
  rw [stepFlags, lineCommentUpdate_semi, blockOpenUpdate_semi, quoteUpdate_semi]

/-- While one of the four lexical flags is set, a semicolon is appended to
the current fragment instead of ending a statement. -/
theorem splitLoop_semi_in_mode (f : LexFlags) (cur : List Char)
    (acc : List (List Char)) (rest : List Char)
    (h : f.inSingleQuote = true ∨ f.inDoubleQuote = true ∨
         f.inLineComment = true ∨ f.inBlockComment = true) :
    splitLoop f cur acc (';' :: rest) = splitLoop f (cur ++ [';']) acc rest := by
  have ht : topLevel f = false := by
    rcases h with h | h | h | h <;> simp [topLevel, h]
  cases rest with
  | nil =>
    conv_lhs => rw [splitLoop]
    rw [if_neg (by rw [stepFlags_semi]; simp [ht])]
    conv_rhs => rw [splitLoop]
  | cons d t =>
    conv_lhs => rw [splitLoop]
    rw [if_neg (by rw [lineCommentUpdate_semi]; simp [blockCloseCond]),
      if_neg (by rw [stepFlags_semi]; simp [ht]), stepFlags_semi]

theorem filter_trim_cons (cur : List Char) (gs : List (List Char)) :
    ((cur :: gs).map trimChars).filter (fun g => !g.isEmpty) =
      emitFragment cur ++ (gs.map trimChars).filter (fun g => !g.isEmpty) := by
  simp only [List.map_cons, List.filter_cons, emitFragment]
  cases htr : trimChars cur <;> simp [htr]

theorem splitLoop_eq_of_runOk (l : List Char) (f : LexFlags) (cur : List Char)
    (acc : List (List Char)) :
    splitRunOk f l = true →
    splitLoop f cur acc l =
      acc ++ ((consHeadFrag cur (splitSemis l)).map trimChars).filter
        (fun g => !g.isEmpty) := by
  induction f, cur, acc, l using splitLoop.induct with
  | case1 f cur acc =>
    intro _
    rw [splitLoop]
    simp only [splitSemis, consHeadFrag, List.append_nil, List.map_cons,
      List.map_nil, List.filter]
    cases h : trimChars cur <;> simp [emitFragment, h]
  | case2 f cur acc c hsemi =>
    intro h
    have hc : c = ';' := by
      have := hsemi
      simp only [Bool.and_eq_true, beq_iff_eq] at this
      exact this.1
    subst hc
    rw [splitLoop, if_pos hsemi]
    have hs : splitSemis [';'] = [[], []] := by decide
    rw [hs]
    have h2 : consHeadFrag cur [[], []] = cur :: [[]] := by
      simp [consHeadFrag]
    rw [h2, filter_trim_cons]
    have h3 : (([[]] : List (List Char)).map trimChars).filter
        (fun g => !g.isEmpty) = [] := by decide
    rw [h3]
    simp
  | case3 f cur acc c hsemi =>
    intro h
    rw [splitLoop, if_neg hsemi]
    by_cases hc : c = ';'
    · subst hc
      rw [splitRunOk] at h
      simp only [beq_self_eq_true, Bool.not_true, Bool.false_or] at h
      exact absurd (by simp [h]) hsemi
    · have h0 : splitSemis [c] = [[c]] := by
        rw [splitSemis, if_neg hc]
        rfl
      rw [h0]
      have h2 : consHeadFrag cur [[c]] = [cur ++ [c]] := by
        simp [consHeadFrag]
      rw [h2]
      have h3 : ([cur ++ [c]] : List (List Char)) = (cur ++ [c]) :: [] := rfl
      rw [h3, filter_trim_cons]
      simp
  | case4 f cur acc c d rest hclose ih =>
    intro h
    rw [splitRunOk, if_pos hclose] at h
    obtain ⟨⟨_, hc⟩, hd⟩ : (_ ∧ c = '*') ∧ d = '/' := by
      simpa only [blockCloseCond, Bool.and_eq_true, beq_iff_eq,
        Option.some.injEq] using hclose
    subst hc
    subst hd
    rw [splitLoop, if_pos hclose]
    rw [ih h]
    have h1 : splitSemis ('*' :: '/' :: rest) =
        consHead '*' (consHead '/' (splitSemis rest)) := by
      rw [splitSemis, if_neg (by decide), splitSemis, if_neg (by decide)]
    rw [h1, consHeadFrag_consHead, consHeadFrag_consHead]
    simp
  | case5 f cur acc c d rest hclose hsemi ih =>
    intro h
    have hc : c = ';' := by
      have := hsemi
      simp only [Bool.and_eq_true, beq_iff_eq] at this
      exact this.1
    subst hc
    rw [splitRunOk, if_neg hclose, if_pos (by simp), Bool.and_eq_true] at h
    have h1 : splitSemis (';' :: d :: rest) = [] :: splitSemis (d :: rest) := by
      conv_lhs => rw [splitSemis]
      simp
    rw [splitLoop, if_neg hclose, if_pos hsemi, ih h.2,
      consHeadFrag_nil _ (splitSemis_ne_nil (d :: rest)), h1]
    have h2 : consHeadFrag cur ([] :: splitSemis (d :: rest)) =
        cur :: splitSemis (d :: rest) := by
      simp [consHeadFrag]
    rw [h2, filter_trim_cons]
    simp
  | case6 f cur acc c d rest hclose hsemi ih =>
    intro h
    rw [splitRunOk, if_neg hclose] at h
    have hc : c ≠ ';' := by
      intro hc
      subst hc
      rw [if_pos (by simp), Bool.and_eq_true] at h
      simp [h.1] at hsemi
    rw [if_neg (by simpa using hc)] at h
    have h1 : splitSemis (c :: d :: rest) = consHead c (splitSemis (d :: rest)) := by
      conv_lhs => rw [splitSemis]
      rw [if_neg hc]
    rw [splitLoop, if_neg hclose, if_neg hsemi, ih h, h1, consHeadFrag_consHead]

end QueryExecutor

/-- C1: for every SQL (non-document-store) dialect, a semicolon scanned
while the splitter is inside a single-quoted string, inside a double-quoted
string, inside a `--` line comment or inside a block comment is appended to
the current fragment and never treated as a statement boundary; in
particular `SELECT ';' AS x; SELECT 2;` splits into exactly two
statements. -/
theorem C1_quoted_or_commented_semicolon_never_boundary :
    (∀ (f : QueryExecutor.LexFlags) (cur : List Char)
        (acc : List (List Char)) (rest : List Char),
      f.inSingleQuote = true ∨ f.inDoubleQuote = true ∨
        f.inLineComment = true ∨ f.inBlockComment = true →
      QueryExecutor.splitLoop f cur acc (';' :: rest) =
        QueryExecutor.splitLoop f (cur ++ [';']) acc rest) ∧
    (∀ t : DatabaseType, t ≠ DatabaseType.MongoDB →
      QueryExecutor.splitQueries t "SELECT ';' AS x; SELECT 2;".toList =
        ["SELECT ';' AS x".toList, "SELECT 2".toList]) := by
  constructor
  · exact fun f cur acc rest h =>
      QueryExecutor.splitLoop_semi_in_mode f cur acc rest h
  · intro t ht
    rw [QueryExecutor.splitQueries, if_neg ht]
    decide

/-- Witness for C1 at a concrete flag state and the concrete example. -/
theorem C1_witness :
    QueryExecutor.splitLoop { inSingleQuote := true } ['a'] [] (';' :: []) =
      QueryExecutor.splitLoop { inSingleQuote := true } (['a'] ++ [';']) [] [] ∧
    QueryExecutor.splitQueries DatabaseType.MySQL
        "SELECT ';' AS x; SELECT 2;".toList =
      ["SELECT ';' AS x".toList, "SELECT 2".toList] :=
  ⟨C1_quoted_or_commented_semicolon_never_boundary.1 _ _ _ _ (Or.inl rfl),
   C1_quoted_or_commented_semicolon_never_boundary.2 DatabaseType.MySQL
     (by decide)⟩

/-- C8: for every SQL dialect, when the splitter's run meets every
semicolon of the script at top level (no quoted or commented semicolons),
the output is exactly the semicolon-delimited fragments, trimmed, with
fragments that are empty after trimming dropped, in source order, the
trailing fragment included — in particular a script of N such non-blank
statements yields exactly N statements. -/
theorem C8_splitter_splits_plain_scripts (t : DatabaseType)
    (ht : t ≠ DatabaseType.MongoDB) (script : List Char)
    (h : QueryExecutor.splitRunOk {} script = true) :
    QueryExecutor.splitQueries t script =
      ((QueryExecutor.splitSemis script).map trimChars).filter
        (fun g => !g.isEmpty) := by
  rw [QueryExecutor.splitQueries, if_neg ht,
    QueryExecutor.splitLoop_eq_of_runOk script {} [] [] h,
    QueryExecutor.consHeadFrag_nil _ (QueryExecutor.splitSemis_ne_nil script)]
  simp

/-- Witness for C8 on a concrete three-statement script with an empty
fragment and an unterminated trailing statement. -/
theorem C8_witness :
    QueryExecutor.splitRunOk {} " SELECT 1 ;; SELECT 2 ;  SELECT 3".toList = true ∧
    QueryExecutor.splitQueries DatabaseType.MySQL
        " SELECT 1 ;; SELECT 2 ;  SELECT 3".toList =
      ((QueryExecutor.splitSemis " SELECT 1 ;; SELECT 2 ;  SELECT 3".toList).map
        trimChars).filter (fun g => !g.isEmpty) :=
  ⟨by decide, C8_splitter_splits_plain_scripts DatabaseType.MySQL (by decide) _
    (by decide)⟩

/-- C2: for every pending-change state, however the cell changes, new rows
and delete markers were recorded, generateSqlStatements emits all DELETE
statements first, then all UPDATE statements, then all INSERT statements. -/
theorem C2_generate_orders_deletes_updates_inserts
    (pc : DataEditor.PendingChanges) (ti : DataEditor.EditableTableInfo)
    (rows : List Row) (t : DatabaseType) :
    ∃ ds us ins,
      DataEditor.generateSqlStatements pc ti rows t = ds ++ us ++ ins ∧
      ds.length = pc.deletes.length ∧
      ins.length = pc.inserts.length ∧
      (∀ s ∈ ds, ∃ r, s = "DELETE FROM " ++ r) ∧
      (∀ s ∈ us, ∃ r, s = "UPDATE " ++ r) ∧
      (∀ s ∈ ins, ∃ r, s = "INSERT INTO " ++ r) := by
  refine ⟨_, _, _, rfl, by simp, by simp, ?_, ?_, ?_⟩ <;>
  · intro s hs
    obtain ⟨x, _, rfl⟩ := List.mem_map.mp hs
    exact ⟨_, rfl⟩

/-- C4: the DataEditor value formatter maps null and undefined to NULL, a
number to its unquoted decimal rendering, a boolean to TRUE/FALSE under
PostgreSQL and to 1/0 under every other dialect, a Date to its
single-quoted ISO-8601 string, and every other value to a single-quoted
string with every embedded single quote doubled and no other character
changed. -/
theorem C4_formatValue_contract (t : DatabaseType) (n : Int) (b : Bool)
    (iso s : String) (c : Char) :
    DataEditor.formatValue SqlValue.vnull t = "NULL" ∧
    DataEditor.formatValue SqlValue.vundefined t = "NULL" ∧
    DataEditor.formatValue (SqlValue.vnum n) t = toString n ∧
    DataEditor.formatValue (SqlValue.vnum 42) t = "42" ∧
    DataEditor.formatValue (SqlValue.vbool b) t =
      (if t = DatabaseType.PostgreSQL then (if b then "TRUE" else "FALSE")
       else (if b then "1" else "0")) ∧
    DataEditor.formatValue (SqlValue.vdate iso) t = "'" ++ (iso ++ "'") ∧
    DataEditor.formatValue (SqlValue.vstr s) t =
      "'" ++ (DataEditor.escapeSingleQuotes s ++ "'") ∧
    DataEditor.escapeChars [c] =
      (if c = '\'' then ['\'', '\''] else [c]) ∧
    DataEditor.escapeSingleQuotes "O'Brien" = "O''Brien" := by
  refine ⟨rfl, rfl, rfl, by cases t <;> decide, rfl, rfl, rfl, ?_, by decide⟩
  by_cases hc : c = '\'' <;> simp [DataEditor.escapeChars, hc]

/-- C5 counterexample: on a cell with no previously recorded change, a call
whose newValue equals the cell's baseline oldValue is pushed and persisted
as a no-op entry, so the pending-updates collection does contain an entry
for the cell afterwards. -/
theorem C5_counterexample :
    DataEditor.addCellChange []
        { rowIndex := 0, column := "name", oldValue := SqlValue.vnum 1,
          newValue := SqlValue.vnum 1 } =
      [{ rowIndex := 0, column := "name", oldValue := SqlValue.vnum 1,
         newValue := SqlValue.vnum 1 }] ∧
    (DataEditor.addCellChange []
        { rowIndex := 0, column := "name", oldValue := SqlValue.vnum 1,
          newValue := SqlValue.vnum 1 }).any
      (fun c => c.rowIndex == 0 && c.column == "name") = true := by
  constructor <;> decide

/-- C5 amended: when the collection already holds an entry for the cell
(and, as the editor maintains, at most one entry per cell), re-applying
addCellChange with a newValue equal to that entry's baseline oldValue
removes the entry, leaving no entry for the cell; a fresh no-op change on
an untouched cell, however, is persisted. -/
theorem C5_revert_removes_recorded_change
    (updates : List DataEditor.CellChange) (ri : Nat) (col : String)
    (w v : SqlValue)
    (huniq : (updates.filter
      (fun c => c.rowIndex == ri && c.column == col)).length ≤ 1)
    (hmem : ∃ e ∈ updates, e.rowIndex = ri ∧ e.column = col ∧ e.oldValue = v) :
    ∀ c ∈ DataEditor.addCellChange updates
        { rowIndex := ri, column := col, oldValue := w, newValue := v },
      ¬(c.rowIndex = ri ∧ c.column = col) := by
  induction updates with
  | nil =>
    obtain ⟨e, he, _⟩ := hmem
    exact absurd he (List.not_mem_nil e)
  | cons c0 rest ih =>
    rw [DataEditor.addCellChange]
    by_cases hmatch : (c0.rowIndex == ri && c0.column == col) = true
    · rw [if_pos hmatch]
      have hrest : ∀ c ∈ rest, ¬(c.rowIndex = ri ∧ c.column = col) := by
        rw [List.filter_cons, if_pos hmatch] at huniq
        simp only [List.length_cons] at huniq
        have hfil : rest.filter (fun c => c.rowIndex == ri && c.column == col) = [] :=
          List.length_eq_zero.mp (by omega)
        intro c hc hcell
        have : c ∈ rest.filter (fun c => c.rowIndex == ri && c.column == col) :=
          List.mem_filter.mpr ⟨hc, by simp [hcell.1, hcell.2]⟩
        rw [hfil] at this
        exact List.not_mem_nil c this
      have hold : c0.oldValue = v := by
        obtain ⟨e, he, he1, he2, he3⟩ := hmem
        rcases List.mem_cons.mp he with rfl | he'
        · exact he3
        · exact absurd ⟨he1, he2⟩ (hrest e he')
      rw [if_pos (by simp [hold])]
      exact hrest
    · rw [if_neg hmatch]
      intro c hc
      rcases List.mem_cons.mp hc with rfl | hc'
      · intro hcell
        exact hmatch (by simp [hcell.1, hcell.2])
      · refine ih ?_ ?_ c hc'
        · rw [List.filter_cons, if_neg hmatch] at huniq
          exact huniq
        · obtain ⟨e, he, he1, he2, he3⟩ := hmem
          rcases List.mem_cons.mp he with rfl | he'
          · exact absurd (by simp [he1, he2]) hmatch
          · exact ⟨e, he', he1, he2, he3⟩

/-- Witness for C5: a recorded edit of cell (0, name) from A to B reverted
by a second call with newValue A leaves no entry for the cell. -/
theorem C5_witness :
    (DataEditor.addCellChange
        [{ rowIndex := 0, column := "name", oldValue := SqlValue.vstr "A",
           newValue := SqlValue.vstr "B" }]
        { rowIndex := 0, column := "name", oldValue := SqlValue.vstr "B",
          newValue := SqlValue.vstr "A" }).any
      (fun c => c.rowIndex == 0 && c.column == "name") = false := by
  rw [List.any_eq_false]
  intro c hc hpred
  refine C5_revert_removes_recorded_change
    [{ rowIndex := 0, column := "name", oldValue := SqlValue.vstr "A",
       newValue := SqlValue.vstr "B" }]
    0 "name" (SqlValue.vstr "B") (SqlValue.vstr "A") (by decide)
    ⟨{ rowIndex := 0, column := "name", oldValue := SqlValue.vstr "A",
       newValue := SqlValue.vstr "B" }, by decide⟩ c hc ?_
  simpa using hpred

theorem rejected_isEditable (m : String) :
    (DataEditor.rejected m).isEditable = false := rfl

theorem tableInfoOfParts_isEditable (tn : List Char) :
    (DataEditor.tableInfoOfParts tn).isEditable = true := by
  unfold DataEditor.tableInfoOfParts
  split <;> rfl

/-- C6 counterexample: in `select * from t where a = 'join'` the keyword
JOIN occurs only inside a single-quoted string literal and every other
rejection rule fails, yet parseQueryForTable rejects the query with the
JOIN reason — the source regexes are not literal-aware. -/
theorem C6_counterexample :
    (DataEditor.parseQueryForTable
      "select * from t where a = 'join'".toList).isEditable = false ∧
    (DataEditor.parseQueryForTable
      "select * from t where a = 'join'".toList).editError =
      some "Queries with JOINs cannot be edited directly" ∧
    DataEditor.containsWordCI "join".toList
      (DataEditor.stripQuotedContent none
        "select * from t where a = 'join'".toList) = false ∧
    "select".toList.isPrefixOf
      ((trimChars "select * from t where a = 'join'".toList).map
        Char.toLower) = true ∧
    DataEditor.countSelect "select * from t where a = 'join'".toList = 1 ∧
    DataEditor.containsWordCI "union".toList
      "select * from t where a = 'join'".toList = false ∧
    DataEditor.containsGroupBy "select * from t where a = 'join'".toList = false ∧
    (DataEditor.findFromCapture none
      "select * from t where a = 'join'".toList).isSome = true := by
  refine ⟨by decide, by decide, by decide, by decide, by decide, by decide,
    by decide, by decide⟩

/-- C6 amended: parseQueryForTable rejects, with a specific reason, exactly
when one of the ordered rules matches — not starting with SELECT; the word
JOIN anywhere in the text, string literals included; more than one SELECT
occurrence; the word UNION anywhere; GROUP BY anywhere; no FROM identifier
found — and otherwise returns editable with the first FROM identifier,
stripped of quoting characters, split right-to-left into table, schema and
database. -/
theorem C6_classification_rules (q : List Char) :
    ((DataEditor.parseQueryForTable q).isEditable = true ↔
      ("select".toList.isPrefixOf ((trimChars q).map Char.toLower) = true ∧
       DataEditor.containsWordCI "join".toList q = false ∧
       DataEditor.countSelect q ≤ 1 ∧
       DataEditor.containsWordCI "union".toList q = false ∧
       DataEditor.containsGroupBy q = false ∧
       (DataEditor.findFromCapture none q).isSome = true)) ∧
    ("select".toList.isPrefixOf ((trimChars q).map Char.toLower) = false →
      DataEditor.parseQueryForTable q =
        DataEditor.rejected "Only SELECT queries can be edited") ∧
    ("select".toList.isPrefixOf ((trimChars q).map Char.toLower) = true →
      DataEditor.containsWordCI "join".toList q = true →
      DataEditor.parseQueryForTable q =
        DataEditor.rejected "Queries with JOINs cannot be edited directly") ∧
    ("select".toList.isPrefixOf ((trimChars q).map Char.toLower) = true →
      DataEditor.containsWordCI "join".toList q = false →
      1 < DataEditor.countSelect q →
      DataEditor.parseQueryForTable q =
        DataEditor.rejected "Queries with subqueries cannot be edited directly") ∧
    ("select".toList.isPrefixOf ((trimChars q).map Char.toLower) = true →
      DataEditor.containsWordCI "join".toList q = false →
      DataEditor.countSelect q ≤ 1 →
      DataEditor.containsWordCI "union".toList q = true →
      DataEditor.parseQueryForTable q =
        DataEditor.rejected "UNION queries cannot be edited directly") ∧
    ("select".toList.isPrefixOf ((trimChars q).map Char.toLower) = true →
      DataEditor.containsWordCI "join".toList q = false →
      DataEditor.countSelect q ≤ 1 →
      DataEditor.containsWordCI "union".toList q = false →
      DataEditor.containsGroupBy q = true →
      DataEditor.parseQueryForTable q =
        DataEditor.rejected "Aggregated queries cannot be edited") ∧
    ("select".toList.isPrefixOf ((trimChars q).map Char.toLower) = true →
      DataEditor.containsWordCI "join".toList q = false →
      DataEditor.countSelect q ≤ 1 →
      DataEditor.containsWordCI "union".toList q = false →
      DataEditor.containsGroupBy q = false →
      DataEditor.findFromCapture none q = none →
      DataEditor.parseQueryForTable q =
        DataEditor.rejected "Could not identify table name") ∧
    (∀ cap, "select".toList.isPrefixOf ((trimChars q).map Char.toLower) = true →
      DataEditor.containsWordCI "join".toList q = false →
      DataEditor.countSelect q ≤ 1 →
      DataEditor.containsWordCI "union".toList q = false →
      DataEditor.containsGroupBy q = false →
      DataEditor.findFromCapture none q = some cap →
      DataEditor.parseQueryForTable q =
        DataEditor.tableInfoOfParts (DataEditor.stripQuoteChars cap)) := by
  have hrej : ∀ m : String, (DataEditor.rejected m).isEditable = false :=
    fun _ => rfl
  have h1 : "select".toList.isPrefixOf ((trimChars q).map Char.toLower) = false →
      DataEditor.parseQueryForTable q =
        DataEditor.rejected "Only SELECT queries can be edited" := by
    intro hS
    unfold DataEditor.parseQueryForTable
    rw [if_pos (by rw [hS]; decide)]
  have h2 : "select".toList.isPrefixOf ((trimChars q).map Char.toLower) = true →
      DataEditor.containsWordCI "join".toList q = true →
      DataEditor.parseQueryForTable q =
        DataEditor.rejected "Queries with JOINs cannot be edited directly" := by
    intro hS hJ
    unfold DataEditor.parseQueryForTable
    rw [if_neg (by rw [hS]; decide), if_pos hJ]
  have h3 : "select".toList.isPrefixOf ((trimChars q).map Char.toLower) = true →
      DataEditor.containsWordCI "join".toList q = false →
      1 < DataEditor.countSelect q →
      DataEditor.parseQueryForTable q =
        DataEditor.rejected "Queries with subqueries cannot be edited directly" := by
    intro hS hJ hM
    unfold DataEditor.parseQueryForTable
    rw [if_neg (by rw [hS]; decide), if_neg (by rw [hJ]; decide), if_pos hM]
  have h4 : "select".toList.isPrefixOf ((trimChars q).map Char.toLower) = true →
      DataEditor.containsWordCI "join".toList q = false →
      DataEditor.countSelect q ≤ 1 →
      DataEditor.containsWordCI "union".toList q = true →
      DataEditor.parseQueryForTable q =
        DataEditor.rejected "UNION queries cannot be edited directly" := by
    intro hS hJ hM hU
    unfold DataEditor.parseQueryForTable
    rw [if_neg (by rw [hS]; decide), if_neg (by rw [hJ]; decide),
      if_neg (by omega), if_pos hU]
  have h5 : "select".toList.isPrefixOf ((trimChars q).map Char.toLower) = true →
      DataEditor.containsWordCI "join".toList q = false →
      DataEditor.countSelect q ≤ 1 →
      DataEditor.containsWordCI "union".toList q = false →
      DataEditor.containsGroupBy q = true →
      DataEditor.parseQueryForTable q =
        DataEditor.rejected "Aggregated queries cannot be edited" := by
    intro hS hJ hM hU hG
    unfold DataEditor.parseQueryForTable
    rw [if_neg (by rw [hS]; decide), if_neg (by rw [hJ]; decide),
      if_neg (by omega), if_neg (by rw [hU]; decide), if_pos hG]
  have h6 : "select".toList.isPrefixOf ((trimChars q).map Char.toLower) = true →
      DataEditor.containsWordCI "join".toList q = false →
      DataEditor.countSelect q ≤ 1 →
      DataEditor.containsWordCI "union".toList q = false →
      DataEditor.containsGroupBy q = false →
      DataEditor.findFromCapture none q = none →
      DataEditor.parseQueryForTable q =
        DataEditor.rejected "Could not identify table name" := by
    intro hS hJ hM hU hG hF
    unfold DataEditor.parseQueryForTable
    rw [if_neg (by rw [hS]; decide), if_neg (by rw [hJ]; decide),
      if_neg (by omega), if_neg (by rw [hU]; decide),
      if_neg (by rw [hG]; decide), hF]
  have h7 : ∀ cap,
      "select".toList.isPrefixOf ((trimChars q).map Char.toLower) = true →
      DataEditor.containsWordCI "join".toList q = false →
      DataEditor.countSelect q ≤ 1 →
      DataEditor.containsWordCI "union".toList q = false →
      DataEditor.containsGroupBy q = false →
      DataEditor.findFromCapture none q = some cap →
      DataEditor.parseQueryForTable q =
        DataEditor.tableInfoOfParts (DataEditor.stripQuoteChars cap) := by
    intro cap hS hJ hM hU hG hF
    unfold DataEditor.parseQueryForTable
    rw [if_neg (by rw [hS]; decide), if_neg (by rw [hJ]; decide),
      if_neg (by omega), if_neg (by rw [hU]; decide),
      if_neg (by rw [hG]; decide), hF]
  refine ⟨?_, h1, h2, h3, h4, h5, h6, h7⟩
  constructor
  · intro hed
    by_cases hS : "select".toList.isPrefixOf ((trimChars q).map Char.toLower) = true
    swap
    · rw [h1 (Bool.not_eq_true _ ▸ (Bool.eq_false_iff.mpr (fun hx => hS hx))), hrej] at hed
      exact absurd hed (by decide)
    by_cases hJ : DataEditor.containsWordCI "join".toList q = true
    · rw [h2 hS hJ, hrej] at hed
      exact absurd hed (by decide)
    replace hJ := Bool.eq_false_iff.mpr (fun hx => hJ hx)
    by_cases hM : 1 < DataEditor.countSelect q
    · rw [h3 hS hJ hM, hrej] at hed
      exact absurd hed (by decide)
    replace hM : DataEditor.countSelect q ≤ 1 := by omega
    by_cases hU : DataEditor.containsWordCI "union".toList q = true
    · rw [h4 hS hJ hM hU, hrej] at hed
      exact absurd hed (by decide)
    replace hU := Bool.eq_false_iff.mpr (fun hx => hU hx)
    by_cases hG : DataEditor.containsGroupBy q = true
    · rw [h5 hS hJ hM hU hG, hrej] at hed
      exact absurd hed (by decide)
    replace hG := Bool.eq_false_iff.mpr (fun hx => hG hx)
    cases hF : DataEditor.findFromCapture none q with
    | none =>
      rw [h6 hS hJ hM hU hG hF, hrej] at hed
      exact absurd hed (by decide)
    | some cap =>
      exact ⟨hS, hJ, hM, hU, hG, by simp [hF]⟩
  · rintro ⟨hS, hJ, hM, hU, hG, hF⟩
    obtain ⟨cap, hcap⟩ := Option.isSome_iff_exists.mp hF
    rw [h7 cap hS hJ hM hU hG hcap]
    exact tableInfoOfParts_isEditable _

/-- Witness for C6: the JOIN rule fires on a concrete query. -/
theorem C6_witness :
    DataEditor.parseQueryForTable "select a from t join u".toList =
      DataEditor.rejected "Queries with JOINs cannot be edited directly" :=
  (C6_classification_rules "select a from t join u".toList).2.2.1
    (by decide) (by decide)

theorem execChangesLoop_spec (exec : String → Except String QueryResult)
    (sts : List String) :
    ∀ (a : Nat) (e : List String),
      DataEditor.execChangesLoop exec sts a e =
        (a + DataEditor.sumAffectedRows exec sts,
         e ++ DataEditor.collectErrorTexts exec sts) := by
  induction sts with
  | nil => intro a e; simp [DataEditor.execChangesLoop,
      DataEditor.sumAffectedRows, DataEditor.collectErrorTexts]
  | cons sql rest ih =>
    intro a e
    rw [DataEditor.execChangesLoop]
    cases hx : exec sql with
    | ok r =>
      cases hr : r.error with
      | some msg =>
        simp [ih, hr, DataEditor.sumAffectedRows, DataEditor.collectErrorTexts, hx]
      | none =>
        simp [ih, hr, DataEditor.sumAffectedRows, DataEditor.collectErrorTexts,
          hx, Nat.add_assoc]
    | error m =>
      simp [ih, DataEditor.sumAffectedRows, DataEditor.collectErrorTexts, hx]

theorem collectErrorTexts_eq_nil (exec : String → Except String QueryResult)
    (sts : List String) :
    DataEditor.collectErrorTexts exec sts = [] ↔
      ∀ sql ∈ sts, DataEditor.execOk exec sql = true := by
  induction sts with
  | nil => simp [DataEditor.collectErrorTexts]
  | cons sql rest ih =>
    rw [DataEditor.collectErrorTexts]
    cases hx : exec sql with
    | ok r =>
      cases hr : r.error with
      | some msg =>
        simp only [hr]
        constructor
        · intro h
          simp at h
        · intro hall
          have := hall sql (List.mem_cons_self sql rest)
          simp [DataEditor.execOk, hx, hr] at this
      | none =>
        simp only [hr, List.nil_append]
        rw [ih]
        constructor
        · intro hall s hs
          rcases List.mem_cons.mp hs with rfl | hs'
          · simp [DataEditor.execOk, hx, hr]
          · exact hall s hs'
        · intro hall s hs
          exact hall s (List.mem_cons_of_mem sql hs)
    | error m =>
      constructor
      · intro h
        simp at h
      · intro hall
        have := hall sql (List.mem_cons_self sql rest)
        simp [DataEditor.execOk, hx] at this

theorem groupUpdatesByRow_acc_ne_nil (u : List DataEditor.CellChange) :
    ∀ m : List (Nat × List DataEditor.CellChange), m ≠ [] →
      u.foldl DataEditor.insertUpdate m ≠ [] := by
  induction u with
  | nil => intro m hm; simpa using hm
  | cons x rest ih =>
    intro m hm
    rw [List.foldl_cons]
    refine ih _ ?_
    rw [DataEditor.insertUpdate]
    by_cases hany : m.any (fun p => p.1 == x.rowIndex) = true
    · rw [if_pos hany]
      simpa using hm
    · rw [if_neg hany]
      simp

theorem generate_eq_nil_iff (pc : DataEditor.PendingChanges)
    (ti : DataEditor.EditableTableInfo) (rows : List Row) (t : DatabaseType) :
    DataEditor.generateSqlStatements pc ti rows t = [] ↔
      pc = DataEditor.emptyPendingChanges := by
  constructor
  · intro h
    rw [DataEditor.generateSqlStatements] at h
    simp only [List.append_eq_nil, List.map_eq_nil_iff] at h
    obtain ⟨⟨hdel, hupd⟩, hins⟩ := h
    have hu : pc.updates = [] := by
      by_contra hne
      cases hu : pc.updates with
      | nil => exact hne hu
      | cons a l =>
        have := groupUpdatesByRow_acc_ne_nil l
          (DataEditor.insertUpdate [] a) (by simp [DataEditor.insertUpdate])
        rw [DataEditor.groupUpdatesByRow, hu, List.foldl_cons] at hupd
        exact this hupd
    cases pc
    simp_all [DataEditor.emptyPendingChanges]
  · intro h
    subst h
    rfl

/-- C7: executeChanges clears the pending-change collections exactly when
every compiled statement executes without error; when one or more
statements fail the pending changes are kept for retry and the result
reports success = false together with the summed affected-row count of the
successful statements and the concatenated error texts of the failed
ones. -/
theorem C7_executeChanges_clears_iff_all_succeed
    (pc : DataEditor.PendingChanges) (ti : DataEditor.EditableTableInfo)
    (rows : List Row) (t : DatabaseType)
    (exec : String → Except String QueryResult) :
    ((DataEditor.executeChanges pc ti rows t true exec).2 =
        DataEditor.emptyPendingChanges ↔
      ∀ sql ∈ DataEditor.generateSqlStatements pc ti rows t,
        DataEditor.execOk exec sql = true) ∧
    ((∀ sql ∈ DataEditor.generateSqlStatements pc ti rows t,
        DataEditor.execOk exec sql = true) →
      (DataEditor.executeChanges pc ti rows t true exec).1.success = true) ∧
    (¬(∀ sql ∈ DataEditor.generateSqlStatements pc ti rows t,
        DataEditor.execOk exec sql = true) →
      (DataEditor.executeChanges pc ti rows t true exec).1.success = false ∧
      (DataEditor.executeChanges pc ti rows t true exec).2 = pc ∧
      (DataEditor.executeChanges pc ti rows t true exec).1.affectedRows =
        DataEditor.sumAffectedRows exec
          (DataEditor.generateSqlStatements pc ti rows t) ∧
      (DataEditor.executeChanges pc ti rows t true exec).1.message =
        "Some changes failed:\n" ++ String.intercalate "\n\n"
          (DataEditor.collectErrorTexts exec
            (DataEditor.generateSqlStatements pc ti rows t))) := by
  by_cases hnil : DataEditor.generateSqlStatements pc ti rows t = []
  · have hpc : pc = DataEditor.emptyPendingChanges :=
      (generate_eq_nil_iff pc ti rows t).mp hnil
    have hout : DataEditor.executeChanges pc ti rows t true exec =
        ({ success := true, message := "No changes to save",
           affectedRows := 0 }, pc) := by
      simp only [DataEditor.executeChanges]
      rw [if_pos (by simp [hnil])]
    refine ⟨?_, ?_, ?_⟩
    · rw [hout]
      exact iff_of_true hpc (by intro sql hs; rw [hnil] at hs; cases hs)
    · intro _
      rw [hout]
    · intro hno
      exact absurd (by intro sql hs; rw [hnil] at hs; cases hs) hno
  · have hloop := execChangesLoop_spec exec
      (DataEditor.generateSqlStatements pc ti rows t) 0 []
    simp only [Nat.zero_add, List.nil_append] at hloop
    by_cases herr : DataEditor.collectErrorTexts exec
        (DataEditor.generateSqlStatements pc ti rows t) = []
    · have hall : ∀ sql ∈ DataEditor.generateSqlStatements pc ti rows t,
          DataEditor.execOk exec sql = true :=
        (collectErrorTexts_eq_nil exec _).mp herr
      have hout : DataEditor.executeChanges pc ti rows t true exec =
          ({ success := true,
             message := "Successfully saved " ++
               (toString (DataEditor.sumAffectedRows exec
                 (DataEditor.generateSqlStatements pc ti rows t)) ++ " changes"),
             affectedRows := DataEditor.sumAffectedRows exec
               (DataEditor.generateSqlStatements pc ti rows t) },
           DataEditor.emptyPendingChanges) := by
        simp only [DataEditor.executeChanges, hloop]
        rw [if_neg (by simp [hnil])]
        simp [herr]
      refine ⟨?_, ?_, ?_⟩
      · rw [hout]
        exact iff_of_true rfl hall
      · intro _
        rw [hout]
      · intro hno
        exact absurd hall hno
    · have hno : ¬∀ sql ∈ DataEditor.generateSqlStatements pc ti rows t,
          DataEditor.execOk exec sql = true :=
        fun hall => herr ((collectErrorTexts_eq_nil exec _).mpr hall)
      have hout : DataEditor.executeChanges pc ti rows t true exec =
          ({ success := false,
             message := "Some changes failed:\n" ++ String.intercalate "\n\n"
               (DataEditor.collectErrorTexts exec
                 (DataEditor.generateSqlStatements pc ti rows t)),
             affectedRows := DataEditor.sumAffectedRows exec
               (DataEditor.generateSqlStatements pc ti rows t) }, pc) := by
        simp only [DataEditor.executeChanges, hloop]
        rw [if_neg (by simp [hnil])]
        simp [herr]
      refine ⟨?_, ?_, ?_⟩
      · rw [hout]
        refine iff_of_false ?_ hno
        intro hpc
        exact hnil ((generate_eq_nil_iff pc ti rows t).mpr hpc)
      · intro hall
        exact absurd hall hno
      · intro _
        rw [hout]
        exact ⟨rfl, rfl, rfl, rfl⟩

/-- Witness for C7: one recorded update compiled to one UPDATE statement
that fails leaves the pending change in place and reports failure. -/
theorem C7_witness :
    (DataEditor.executeChanges
        { updates := [{ rowIndex := 0, column := "name",
                        oldValue := SqlValue.vstr "A",
                        newValue := SqlValue.vstr "B" }] }
        { tableName := "users", primaryKeys := ["id"], columns := [],
          isEditable := true }
        [[("id", SqlValue.vnum 1), ("name", SqlValue.vstr "A")]]
        DatabaseType.MySQL true (fun _ => Except.error "boom")).1.success =
      false ∧
    (DataEditor.executeChanges
        { updates := [{ rowIndex := 0, column := "name",
                        oldValue := SqlValue.vstr "A",
                        newValue := SqlValue.vstr "B" }] }
        { tableName := "users", primaryKeys := ["id"], columns := [],
          isEditable := true }
        [[("id", SqlValue.vnum 1), ("name", SqlValue.vstr "A")]]
        DatabaseType.MySQL true (fun _ => Except.error "boom")).2 =
      { updates := [{ rowIndex := 0, column := "name",
                      oldValue := SqlValue.vstr "A",
                      newValue := SqlValue.vstr "B" }] } := by
  have h := C7_executeChanges_clears_iff_all_succeed
    { updates := [{ rowIndex := 0, column := "name",
                    oldValue := SqlValue.vstr "A",
                    newValue := SqlValue.vstr "B" }] }
    { tableName := "users", primaryKeys := ["id"], columns := [],
      isEditable := true }
    [[("id", SqlValue.vnum 1), ("name", SqlValue.vstr "A")]]
    DatabaseType.MySQL (fun _ => Except.error "boom")
  have hno := h.2.2 (by decide)
  exact ⟨hno.1, hno.2.1⟩

/-- C9 counterexample: with the maximum history size configured as 0, an
append leaves one entry in the history — JavaScript `slice(-0)` is
`slice(0)`, the whole array — so the history exceeds the configured cap. -/
theorem C9_counterexample :
    QueryExecutor.addToHistory []
        { id := "h1", connectionId := "c1", query := "SELECT 1",
          timestamp := 0, executionTime := 3, success := true } 0 =
      [{ id := "h1", connectionId := "c1", query := "SELECT 1",
         timestamp := 0, executionTime := 3, success := true }] ∧
    0 < (QueryExecutor.addToHistory []
        { id := "h1", connectionId := "c1", query := "SELECT 1",
          timestamp := 0, executionTime := 3, success := true } 0).length := by
  constructor <;> decide

/-- C9 amended: for every positive configured maximum, after an append the
history holds at most that many entries and equals the most recent entries
of the appended sequence in insertion order (oldest entries are dropped
first). -/
theorem C9_history_bounded_and_ordered (h : List QueryHistoryEntry)
    (e : QueryHistoryEntry) (m : Nat) (hm : 1 ≤ m) :
    (QueryExecutor.addToHistory h e m).length ≤ m ∧
    QueryExecutor.addToHistory h e m =
      (h ++ [e]).drop ((h ++ [e]).length - m) := by
  rw [QueryExecutor.addToHistory]
  by_cases hlen : (h ++ [e]).length > m
  · rw [if_pos hlen]
    unfold jsSliceLast
    rw [if_neg (by omega)]
    refine ⟨?_, rfl⟩
    rw [List.length_drop]
    omega
  · rw [if_neg hlen]
    refine ⟨by omega, ?_⟩
    rw [Nat.sub_eq_zero_of_le (by omega), List.drop_zero]

/-- Witness for C9: appending a third entry to a two-entry history capped
at two drops the oldest entry. -/
theorem C9_witness :
    (QueryExecutor.addToHistory
        [{ id := "h1", connectionId := "c", query := "Q1", timestamp := 1,
           executionTime := 0, success := true },
         { id := "h2", connectionId := "c", query := "Q2", timestamp := 2,
           executionTime := 0, success := true }]
        { id := "h3", connectionId := "c", query := "Q3", timestamp := 3,
          executionTime := 0, success := false } 2).length ≤ 2 ∧
    QueryExecutor.addToHistory
        [{ id := "h1", connectionId := "c", query := "Q1", timestamp := 1,
           executionTime := 0, success := true },
         { id := "h2", connectionId := "c", query := "Q2", timestamp := 2,
           executionTime := 0, success := true }]
        { id := "h3", connectionId := "c", query := "Q3", timestamp := 3,
          executionTime := 0, success := false } 2 =
      (([{ id := "h1", connectionId := "c", query := "Q1", timestamp := 1,
           executionTime := 0, success := true },
         { id := "h2", connectionId := "c", query := "Q2", timestamp := 2,
           executionTime := 0, success := true }] : List QueryHistoryEntry) ++
       ([{ id := "h3", connectionId := "c", query := "Q3", timestamp := 3,
           executionTime := 0, success := false }] : List QueryHistoryEntry)).drop
        ((([{ id := "h1", connectionId := "c", query := "Q1", timestamp := 1,
              executionTime := 0, success := true },
            { id := "h2", connectionId := "c", query := "Q2", timestamp := 2,
              executionTime := 0, success := true }] : List QueryHistoryEntry) ++
          ([{ id := "h3", connectionId := "c", query := "Q3", timestamp := 3,
              executionTime := 0, success := false }] :
            List QueryHistoryEntry)).length - 2) :=
  C9_history_bounded_and_ordered _ _ 2 (by decide)

/-- C3 counterexample: executeQuery does throw — `ensureConnected` runs
before the try block, so a disconnected MySQL or MongoDB provider rejects
with a "not connected" error instead of returning a QueryResult. -/
theorem C3_counterexample :
    MySQLProvider.executeQuery
        { hasConnection := false, state := ConnectionState.Disconnected }
        (fun _ => Except.ok (MySQLProvider.MySQLReply.okPacket 0))
        "SELECT 1" none 5 =
      Except.error "Not connected to MySQL database" ∧
    MongoDBProvider.executeQuery
        { hasConnection := false, state := ConnectionState.Disconnected }
        (fun _ _ => Except.ok (MongoDBProvider.MongoEvalResult.arr []))
        "db.test.find()" none 5 =
      Except.error "Not connected to MongoDB database" := by
  constructor <;> rfl

theorem mysql_executeQuery_connected_none (h : ProviderHandle)
    (server : MySQLProvider.MySQLCommand → Except String MySQLProvider.MySQLReply)
    (q : String) (el : Nat)
    (h1 : h.hasConnection = true) (h2 : h.state = ConnectionState.Connected) :
    MySQLProvider.executeQuery h server q none el =
      MySQLProvider.runStatement server q el [] := by
  rw [MySQLProvider.executeQuery.eq_def, if_neg (by simp [h1, h2])]

theorem mysql_executeQuery_connected_some (h : ProviderHandle)
    (server : MySQLProvider.MySQLCommand → Except String MySQLProvider.MySQLReply)
    (q : String) (d : String) (el : Nat)
    (h1 : h.hasConnection = true) (h2 : h.state = ConnectionState.Connected) :
    MySQLProvider.executeQuery h server q (some d) el =
      (match server (MySQLProvider.MySQLCommand.useDatabase d) with
       | Except.error e =>
         Except.ok ({ rowCount := 0, executionTime := el, error := some e },
           [MySQLProvider.MySQLCommand.useDatabase d])
       | Except.ok _ =>
         MySQLProvider.runStatement server q el
           [MySQLProvider.MySQLCommand.useDatabase d]) := by
  rw [MySQLProvider.executeQuery.eq_def, if_neg (by simp [h1, h2])]

theorem mysql_runStatement_ok
    (server : MySQLProvider.MySQLCommand → Except String MySQLProvider.MySQLReply)
    (q : String) (el : Nat) (sent : List MySQLProvider.MySQLCommand) :
    ∃ r log, MySQLProvider.runStatement server q el sent = Except.ok (r, log) ∧
      (r.error.isSome = true → r.rowCount = 0 ∧ r.rows = none) := by
  rw [MySQLProvider.runStatement]
  by_cases hcl : MySQLProvider.cleanQuery q = ""
  · rw [if_pos hcl]
    exact ⟨_, _, rfl, fun _ => ⟨rfl, rfl⟩⟩
  · rw [if_neg hcl]
    cases hs : server (MySQLProvider.MySQLCommand.statement
        (MySQLProvider.cleanQuery q)) with
    | ok rep =>
      cases rep with
      | resultRows rows fields => exact ⟨_, _, rfl, by simp⟩
      | okPacket n => exact ⟨_, _, rfl, by simp⟩
    | error e => exact ⟨_, _, rfl, fun _ => ⟨rfl, rfl⟩⟩

/-- C3 amended: once connected, executeQuery of the MySQL (and MariaDB) and
MongoDB providers never throws — every failure inside the call, whatever
its cause, is returned as a QueryResult whose error field is set, and any
result with a set error field carries rowCount 0 and no rows. -/
theorem C3_connected_executeQuery_never_throws :
    (∀ (h : ProviderHandle)
        (server : MySQLProvider.MySQLCommand →
          Except String MySQLProvider.MySQLReply)
        (q : String) (db : Option String) (el : Nat),
      h.hasConnection = true → h.state = ConnectionState.Connected →
      ∃ r log, MySQLProvider.executeQuery h server q db el =
          Except.ok (r, log) ∧
        (r.error.isSome = true → r.rowCount = 0 ∧ r.rows = none)) ∧
    (∀ (h : ProviderHandle)
        (evalQuery : String → String →
          Except String MongoDBProvider.MongoEvalResult)
        (q : String) (db : Option String) (el : Nat),
      h.hasConnection = true → h.state = ConnectionState.Connected →
      ∃ r, MongoDBProvider.executeQuery h evalQuery q db el = Except.ok r ∧
        (r.error.isSome = true → r.rowCount = 0 ∧ r.rows = none)) := by
  constructor
  · intro h server q db el h1 h2
    cases db with
    | none =>
      rw [mysql_executeQuery_connected_none h server q el h1 h2]
      exact mysql_runStatement_ok server q el []
    | some d =>
      rw [mysql_executeQuery_connected_some h server q d el h1 h2]
      cases hu : server (MySQLProvider.MySQLCommand.useDatabase d) with
      | ok rep =>
        exact mysql_runStatement_ok server q el
          [MySQLProvider.MySQLCommand.useDatabase d]
      | error e => exact ⟨_, _, rfl, fun _ => ⟨rfl, rfl⟩⟩
  · intro h evalQuery q db el h1 h2
    rw [MongoDBProvider.executeQuery.eq_def, if_neg (by simp [h1, h2])]
    cases hv : evalQuery
        (match db with
         | some d => if d = "" then "test" else d
         | none => "test") q with
    | ok res =>
      cases res with
      | arr docs => exact ⟨_, rfl, by simp⟩
      | single doc => exact ⟨_, rfl, by simp⟩
    | error e => exact ⟨_, rfl, fun _ => ⟨rfl, rfl⟩⟩

/-- Witness for C3 at a connected handle whose driver throws: the thrown
error is converted into the result's error field. -/
theorem C3_witness :
    ∃ r log, MySQLProvider.executeQuery
        { hasConnection := true, state := ConnectionState.Connected }
        (fun _ => Except.error "boom") "SELECT 1" none 7 =
        Except.ok (r, log) ∧
      (r.error.isSome = true → r.rowCount = 0 ∧ r.rows = none) :=
  C3_connected_executeQuery_never_throws.1
    { hasConnection := true, state := ConnectionState.Connected }
    (fun _ => Except.error "boom") "SELECT 1" none 7 rfl rfl

/-- C10 counterexample: with a database argument supplied, a query that
cleans to nothing still causes a server round-trip — the `USE` switch is
issued before the cleaning — so the canned result is not produced "without
contacting the server". -/
theorem C10_counterexample :
    MySQLProvider.cleanQuery "-- just a comment" = "" ∧
    MySQLProvider.executeQuery
        { hasConnection := true, state := ConnectionState.Connected }
        (fun _ => Except.ok (MySQLProvider.MySQLReply.okPacket 0))
        "-- just a comment" (some "shop") 5 =
      Except.ok ({ rowCount := 0, executionTime := 0,
                   error := some "No valid SQL query found" },
        [MySQLProvider.MySQLCommand.useDatabase "shop"]) ∧
    ([MySQLProvider.MySQLCommand.useDatabase "shop"] :
      List MySQLProvider.MySQLCommand) ≠ [] := by
  refine ⟨by decide, by rfl, by decide⟩

theorem mysql_runStatement_log
    (server : MySQLProvider.MySQLCommand → Except String MySQLProvider.MySQLReply)
    (q : String) (el : Nat) (sent : List MySQLProvider.MySQLCommand)
    (r : QueryResult) (log : List MySQLProvider.MySQLCommand) :
    MySQLProvider.runStatement server q el sent = Except.ok (r, log) →
    log = sent ∨ log = sent ++ [MySQLProvider.MySQLCommand.statement
      (MySQLProvider.cleanQuery q)] := by
  rw [MySQLProvider.runStatement]
  by_cases hcl : MySQLProvider.cleanQuery q = ""
  · rw [if_pos hcl]
    intro he
    simp only [Except.ok.injEq, Prod.mk.injEq] at he
    exact Or.inl he.2.symm
  · rw [if_neg hcl]
    cases hs : server (MySQLProvider.MySQLCommand.statement
        (MySQLProvider.cleanQuery q)) with
    | ok rep =>
      cases rep with
      | resultRows rows fields =>
        intro he
        simp only [Except.ok.injEq, Prod.mk.injEq] at he
        exact Or.inr he.2.symm
      | okPacket n =>
        intro he
        simp only [Except.ok.injEq, Prod.mk.injEq] at he
        exact Or.inr he.2.symm
    | error e =>
      intro he
      simp only [Except.ok.injEq, Prod.mk.injEq] at he
      exact Or.inr he.2.symm

/-- C10 amended: for a connected MySQL/MariaDB provider, executeQuery only
ever sends the cleaned statement (line comments, block comments, leading
USE statements and a lone trailing semicolon removed) besides the optional
`USE` database switch; when the cleaning leaves nothing it returns — without
sending the statement itself, though the `USE` switch is still issued first
when a database argument is supplied — a QueryResult with error
'No valid SQL query found', rowCount 0, no rows and executionTime 0. -/
theorem C10_empty_cleaned_query_short_circuits (h : ProviderHandle)
    (server : MySQLProvider.MySQLCommand → Except String MySQLProvider.MySQLReply)
    (q : String) (el : Nat)
    (h1 : h.hasConnection = true) (h2 : h.state = ConnectionState.Connected) :
    (∀ (db : Option String) r log,
      MySQLProvider.executeQuery h server q db el = Except.ok (r, log) →
      ∀ cmd ∈ log,
        cmd = MySQLProvider.MySQLCommand.statement (MySQLProvider.cleanQuery q) ∨
        ∃ d, db = some d ∧ cmd = MySQLProvider.MySQLCommand.useDatabase d) ∧
    (MySQLProvider.cleanQuery q = "" →
      MySQLProvider.executeQuery h server q none el =
        Except.ok ({ rowCount := 0, executionTime := 0,
                     error := some "No valid SQL query found" }, [])) ∧
    (MySQLProvider.cleanQuery q = "" → ∀ (d : String) rep,
      server (MySQLProvider.MySQLCommand.useDatabase d) = Except.ok rep →
      MySQLProvider.executeQuery h server q (some d) el =
        Except.ok ({ rowCount := 0, executionTime := 0,
                     error := some "No valid SQL query found" },
          [MySQLProvider.MySQLCommand.useDatabase d])) := by
  refine ⟨?_, ?_, ?_⟩
  · intro db
    cases db with
    | none =>
      rw [mysql_executeQuery_connected_none h server q el h1 h2]
      intro r log heq cmd hcmd
      rcases mysql_runStatement_log server q el [] r log heq with hl | hl
      · rw [hl] at hcmd
        cases hcmd
      · rw [hl] at hcmd
        simp only [List.nil_append, List.mem_singleton] at hcmd
        exact Or.inl hcmd
    | some d =>
      rw [mysql_executeQuery_connected_some h server q d el h1 h2]
      cases hu : server (MySQLProvider.MySQLCommand.useDatabase d) with
      | ok rep =>
        intro r log heq cmd hcmd
        rcases mysql_runStatement_log server q el
            [MySQLProvider.MySQLCommand.useDatabase d] r log heq with hl | hl
        · rw [hl] at hcmd
          simp only [List.mem_singleton] at hcmd
          exact Or.inr ⟨d, rfl, hcmd⟩
        · rw [hl] at hcmd
          rcases List.mem_append.mp hcmd with hin | hin
          · simp only [List.mem_singleton] at hin
            exact Or.inr ⟨d, rfl, hin⟩
          · simp only [List.mem_singleton] at hin
            exact Or.inl hin
      | error e =>
        intro r log heq cmd hcmd
        simp only [Except.ok.injEq, Prod.mk.injEq] at heq
        rw [← heq.2] at hcmd
        simp only [List.mem_singleton] at hcmd
        exact Or.inr ⟨d, rfl, hcmd⟩
  · intro hcl
    rw [mysql_executeQuery_connected_none h server q el h1 h2,
      MySQLProvider.runStatement, if_pos hcl]
  · intro hcl d rep hrep
    rw [mysql_executeQuery_connected_some h server q d el h1 h2, hrep,
      MySQLProvider.runStatement, if_pos hcl]

/-- Witness for C10: a comment-only query with a database argument returns
the canned empty-query result after the successful USE switch. -/
theorem C10_witness :
    MySQLProvider.executeQuery
        { hasConnection := true, state := ConnectionState.Connected }
        (fun _ => Except.ok (MySQLProvider.MySQLReply.okPacket 0))
        "-- nothing here" (some "shop") 9 =
      Except.ok ({ rowCount := 0, executionTime := 0,
                   error := some "No valid SQL query found" },
        [MySQLProvider.MySQLCommand.useDatabase "shop"]) :=
  (C10_empty_cleaned_query_short_circuits
      { hasConnection := true, state := ConnectionState.Connected }
      (fun _ => Except.ok (MySQLProvider.MySQLReply.okPacket 0))
      "-- nothing here" 9 rfl rfl).2.2 (by decide) "shop"
    (MySQLProvider.MySQLReply.okPacket 0) rfl
